import Mathlib

/-!
Verification development for the Bresser Weather Center 5-in-1 / 6-in-1 / 7-in-1
decoder (src/src/devices/bresser_5in1.c).  The decoder pipeline is embedded
shallowly: a bitbuffer row is a `List Bool` (MSB-first bits), a message is a
`List Nat` of byte values, and each C decode function becomes a pure Lean
function returning either a decoded reading or one of the C failure codes.
Floating-point presentation scaling (the final `* 0.1f` etc.) is kept out of
the model: every field is stored as the integer raw value the C code computes
before scaling.
-/

set_option maxRecDepth 4096

namespace Bresser

/-- Bits of one byte, most significant bit first, as transmitted on air. -/
def byteToBits (b : Nat) : List Bool :=
  (List.range 8).map (fun k => b.testBit (7 - k))

/-- Concatenate the MSB-first bits of a byte list. -/
def bytesToBits : List Nat → List Bool
  | [] => []
  | b :: bs => byteToBits b ++ bytesToBits bs

/-- A bitbuffer: the decoder only ever touches `num_rows` and row 0.  Row 0 is
the declared `bits_per_row[0]` bits; the backing storage past the declared
length is zero-initialised in the host, so out-of-range bit reads yield 0. -/
structure bitbuffer_t where
  num_rows : Nat
  row0 : List Bool
deriving DecidableEq, Repr

/-- Read bit `i` of a row; past the declared length the zeroed backing
storage yields `false`. -/
def getBitRow (row : List Bool) (i : Nat) : Bool :=
  row.getD i false

/-- Does `pat` occur at the head of `bits` (requiring the whole pattern to
fit)? -/
def patMatch : List Bool → List Bool → Bool
  | [], _ => true
  | _ :: _, [] => false
  | p :: ps, b :: bs => (p == b) && patMatch ps bs

/-- Modelled from the spec: `bitbuffer_search` is not under src/.  Per §4.1
the PreambleSynchronizer searches the row for the first exact occurrence of
the pattern; a return value at or beyond the row's bit length means the
pattern was not found (the host routine returns the row length then). -/
def bitbuffer_search : List Bool → List Bool → Nat
  | [], _ => 0
  | b :: t, pat => if patMatch pat (b :: t) then 0 else 1 + bitbuffer_search t pat

/-- Bit `idx` of the extraction window: within the requested `nbits` it is the
row bit at `pos + idx`, beyond the request it is 0. -/
def extractBit (row : List Bool) (pos nbits idx : Nat) : Bool :=
  if idx < nbits then getBitRow row (pos + idx) else false

/-- Byte `j` of the extraction window, assembled MSB first. -/
def extractByteAt (row : List Bool) (pos nbits j : Nat) : Nat :=
  (List.range 8).foldl
    (fun acc k => 2 * acc + (if extractBit row pos nbits (8 * j + k) then 1 else 0)) 0

/-- Modelled from the spec: `bitbuffer_extract_bytes` is not under src/.  Per
§4.2 the FrameExtractor copies `nbits` bits starting at bit `pos` of the row
into fresh bytes (a trailing partial byte is zero-filled low). -/
def bitbuffer_extract_bytes (row : List Bool) (pos : Nat) (nbits : Nat) : List Nat :=
  (List.range ((nbits + 7) / 8)).map (extractByteAt row pos nbits)

/-- One shift of the LFSR key register: shift right, applying the generator
taps when the dropped bit was set. -/
def lfsrStep (gen key : Nat) : Nat :=
  if key % 2 = 1 then (key >>> 1) ^^^ gen else key >>> 1

/-- Modelled from the spec: `lfsr_digest16` is not under src/.  Per §4.4 a
16-bit register holds the evolving key, seeded with a protocol-specific key
and advanced one step per payload bit by the generator constant with linear
feedback; a payload bit that is set folds the current key into the digest. -/
def lfsr_digest16 (bytes : List Nat) (gen key0 : Nat) : Nat :=
  (bytes.foldl
    (fun st byte =>
      (List.range 8).foldl
        (fun st2 i =>
          let key := st2.1
          let sum := st2.2
          (lfsrStep gen key, if byte.testBit (7 - i) then sum ^^^ key else sum))
        st)
    (key0, 0)).2

/-- Fuel-driven end-around-carry fold; fuel `n` always suffices for input `n`
because each folding step strictly decreases the value. -/
def foldCarryAux : Nat → Nat → Nat
  | 0, n => n
  | fuel + 1, n => if n < 256 then n else foldCarryAux fuel (n % 256 + n / 256)

/-- Modelled from the spec: `add_bytes` is not under src/.  Per §4.4 the
additive checksum sums the byte range with end-around carry, repeatedly
folding any overflow beyond 8 bits back into the low byte. -/
def add_bytes (bytes : List Nat) : Nat :=
  foldCarryAux (bytes.foldl (· + ·) 0) (bytes.foldl (· + ·) 0)

/-- The C decode return codes used by this file (success carries a reading). -/
inductive ErrCode where
  | DECODE_ABORT_EARLY
  | DECODE_ABORT_LENGTH
  | DECODE_FAIL_MIC
  | DECODE_FAIL_SANITY
deriving DecidableEq, Repr

/-- Decode result: a reading handed to the output sink (C return 1 together
with `decoder_output_data`), or a failure code (C return ≤ 0). -/
inductive Dres (α : Type) where
  | ok (r : α)
  | err (e : ErrCode)
deriving DecidableEq, Repr

/-- Reading emitted by the 7-in-1 path; raw integer values before the
presentational power-of-ten scaling. -/
structure Reading7 where
  id : Nat
  wdir : Nat
  wgst_raw : Nat
  wavg_raw : Nat
  rain_raw : Nat
  temp_tenths : Int
  humidity : Nat
  lght_raw : Nat
deriving DecidableEq, Repr

/-- Field decoding of the whitened 7-in-1 message (source lines 102-116).
`rain_raw` mirrors the source statement exactly: line 106 ends in a
semicolon, so only the three high digits contribute and the expression on
line 107 holding the three low digits is an orphaned no-op. -/
def decodeFields7 (w : List Nat) : Reading7 :=
  let m := fun i => w.getD i 0
  { id := (m 2) * 256 + m 3
  , wdir := (m 4 >>> 4) * 100 + (m 4 &&& 0xf) * 10 + (m 5 >>> 4)
  , wgst_raw := (m 7 >>> 4) * 100 + (m 7 &&& 0xf) * 10 + (m 8 >>> 4)
  , wavg_raw := (m 8 &&& 0xf) * 100 + (m 9 >>> 4) * 10 + (m 9 &&& 0xf)
  , rain_raw := (m 10 >>> 4) * 100000 + (m 10 &&& 0xf) * 10000 + (m 11 >>> 4) * 1000
  , temp_tenths :=
      (let tr : Int := (((m 14 >>> 4) * 100 + (m 14 &&& 0xf) * 10 + (m 15 >>> 4) : Nat) : Int)
       if tr > 600 then tr - 1000 else tr)
  , humidity := (m 16 >>> 4) * 10 + (m 16 &&& 0xf)
  , lght_raw := (m 17 >>> 4) * 1000 + (m 17 &&& 0xf) * 100 + (m 18 >>> 4) * 10 + (m 18 &&& 0xf) }

/-- Message-level part of the 7-in-1 decoder (source lines 83-134): sanity
check on the raw byte 21, whitening with 0xaa, then the digest comparison
whose mismatch is only logged — both branches still emit the reading. -/
def bresser_7in1_msg (msg : List Nat) : Dres Reading7 :=
  if msg.getD 21 0 = 0 then .err .DECODE_FAIL_SANITY
  else
    let w := msg.map (fun b => b ^^^ 0xaa)
    let chk := (w.getD 0 0) * 256 + w.getD 1 0
    let digest := lfsr_digest16 ((w.drop 2).take 23) 0x8810 0xba95
    if chk ^^^ digest ≠ 0x6df1 then .ok (decodeFields7 w) else .ok (decodeFields7 w)

/-- The 7-in-1 preamble bytes. -/
def pat7 : List Nat := [0xaa, 0xaa, 0xaa, 0x2d, 0xd4]

/-- The 7-in-1 decoder (source lines 47-135). -/
def bresser_7in1_decode (bb : bitbuffer_t) : Dres Reading7 :=
  if bb.num_rows ≠ 1 ∨ bb.row0.length < 240 - 80 then .err .DECODE_ABORT_LENGTH
  else
    let start_pos := bitbuffer_search bb.row0 (bytesToBits pat7) + 5 * 8
    if start_pos ≥ bb.row0.length then .err .DECODE_ABORT_EARLY
    else if start_pos + 21 * 8 ≥ bb.row0.length then .err .DECODE_ABORT_LENGTH
    else bresser_7in1_msg (bitbuffer_extract_bytes bb.row0 start_pos (25 * 8))

/-- Reading emitted by the 6-in-1 path; the `_ok` flags are the `DATA_COND`
presence conditions of the corresponding output fields. -/
structure Reading6 where
  id : Nat
  flags : Nat
  batt : Nat
  chan : Nat
  temp_ok : Bool
  temp_tenths : Int
  humidity_ok : Bool
  humidity : Nat
  uv_ok : Bool
  uv_raw : Nat
  unk_ok : Bool
  unk_raw : Nat
  wind_ok : Bool
  gust_raw : Nat
  wavg_raw : Nat
  wind_dir : Nat
  rain_ok : Bool
  rain_raw : Nat
deriving DecidableEq, Repr

/-- Field decoding of the 6-in-1 message (source lines 233-293).  The source
mutates `msg` in place: bytes 7, 8, 9 are de-inverted before the wind fields,
and bytes 13, 14 before the rain field; humidity/temperature/UV read the
original bytes because they are computed before those mutations. -/
def decodeFields6 (msg : List Nat) : Reading6 :=
  let m := fun i => msg.getD i 0
  let temp_ok := !(m 12 == 0xff)
  let temp_raw : Int := (((m 12 >>> 4) * 100 + (m 12 &&& 0xf) * 10 + (m 13 >>> 4) : Nat) : Int)
  let m7 := m 7 ^^^ 0xff
  let m8 := m 8 ^^^ 0xff
  let m9 := m 9 ^^^ 0xff
  let m13 := m 13 ^^^ 0xff
  let m14 := m 14 ^^^ 0xff
  { id := (m 2) * 2 ^ 24 + (m 3) * 2 ^ 16 + (m 4) * 256 + m 5
  , flags := m 6 >>> 4
  , batt := (m 6 >>> 3) &&& 1
  , chan := m 6 &&& 0x7
  , temp_ok := temp_ok
  , temp_tenths := if temp_raw > 600 then temp_raw - 1000 else temp_raw
  , humidity_ok := !(m 14 == 0xff)
  , humidity := (m 14 >>> 4) * 10 + (m 14 &&& 0xf)
  , uv_ok := !((m 16 &&& 0xf0) == 0xf0)
  , uv_raw := ((m 15 &&& 0xf0) >>> 4) * 100 + (m 15 &&& 0xf) * 10 + ((m 16 &&& 0xf0) >>> 4)
  , unk_ok := (m 16 &&& 0xf0) == 0xf0
  , unk_raw := ((m 15 &&& 0xf0) >>> 4) * 10 + (m 15 &&& 0xf)
  , wind_ok := decide (m7 ≤ 0x99) && decide (m8 ≤ 0x99) && decide (m9 ≤ 0x99)
  , gust_raw := (m7 >>> 4) * 100 + (m7 &&& 0xf) * 10 + (m8 >>> 4)
  , wavg_raw := (m9 >>> 4) * 100 + (m9 &&& 0xf) * 10 + (m8 &&& 0xf)
  , wind_dir := ((m 10 &&& 0xf0) >>> 4) * 100 + (m 10 &&& 0xf) * 10 + ((m 11 &&& 0xf0) >>> 4)
  , rain_ok := !temp_ok
  , rain_raw := (m13 >>> 4) * 1000 + (m13 &&& 0xf) * 100 + (m14 >>> 4) * 10 + (m14 &&& 0xf) }

/-- Message-level part of the 6-in-1 decoder (source lines 214-297): LFSR
digest over bytes 2..16 against the big-endian first two bytes, then the
additive checksum over bytes 2..17; either mismatch aborts with a MIC
failure. -/
def bresser_6in1_msg (msg : List Nat) : Dres Reading6 :=
  let chkdgst := (msg.getD 0 0) * 256 + msg.getD 1 0
  let digest := lfsr_digest16 ((msg.drop 2).take 15) 0x8810 0x5412
  if chkdgst ≠ digest then .err .DECODE_FAIL_MIC
  else if (add_bytes ((msg.drop 2).take 16)) &&& 0xff ≠ 0xff then .err .DECODE_FAIL_MIC
  else .ok (decodeFields6 msg)

/-- The 6-in-1 preamble bytes. -/
def pat6 : List Nat := [0xaa, 0xaa, 0x2d, 0xd4]

/-- The 6-in-1 decoder (source lines 178-298). -/
def bresser_6in1_decode (bb : bitbuffer_t) : Dres Reading6 :=
  if bb.num_rows ≠ 1 ∨ bb.row0.length < 160 ∨ bb.row0.length > 440 then
    .err .DECODE_ABORT_EARLY
  else
    let s := bitbuffer_search bb.row0 (bytesToBits pat6)
    if s ≥ bb.row0.length then .err .DECODE_ABORT_LENGTH
    else
      let start_pos := s + 4 * 8
      if bb.row0.length - start_pos < 18 * 8 then .err .DECODE_ABORT_LENGTH
      else bresser_6in1_msg (bitbuffer_extract_bytes bb.row0 start_pos (18 * 8))

/-- Reading emitted by the 5-in-1 path. -/
structure Reading5 where
  sensor_id : Nat
  temp_tenths : Int
  humidity : Nat
  wdir_raw : Nat
  gust_raw : Nat
  wind_raw : Nat
  rain_raw : Nat
  battery_ok : Bool
deriving DecidableEq, Repr

/-- The 5-in-1 parity loop (source lines 391-398), checking columns
`col`, `col+1`, … and stopping at the first mismatching pair. -/
def parityAux (msg : List Nat) : Nat → Nat → Bool
  | 0, _ => true
  | n + 1, col =>
    if (msg.getD col 0 ^^^ msg.getD (col + 13) 0) ≠ 0xff then false
    else parityAux msg n (col + 1)

/-- First 13 bytes must each be the bitwise complement of the byte 13
positions later. -/
def parity5 (msg : List Nat) : Bool := parityAux msg 13 0

/-- Field decoding of the 5-in-1 message (source lines 403-423).
`wdir_raw` is the 4-bit compass index (presented ×22.5 degrees). -/
def decodeFields5 (msg : List Nat) : Reading5 :=
  let m := fun i => msg.getD i 0
  let temp_raw : Int :=
    (((m 20 &&& 0x0f) + ((m 20 &&& 0xf0) >>> 4) * 10 + (m 21 &&& 0x0f) * 100 : Nat) : Int)
  { sensor_id := m 14
  , temp_tenths := if m 25 &&& 0x0f ≠ 0 then -temp_raw else temp_raw
  , humidity := (m 22 &&& 0x0f) + ((m 22 &&& 0xf0) >>> 4) * 10
  , wdir_raw := (m 17 &&& 0xf0) >>> 4
  , gust_raw := ((m 17 &&& 0x0f) <<< 8) + m 16
  , wind_raw := (m 18 &&& 0x0f) + ((m 18 &&& 0xf0) >>> 4) * 10 + (m 19 &&& 0x0f) * 100
  , rain_raw := (m 23 &&& 0x0f) + ((m 23 &&& 0xf0) >>> 4) * 10 + (m 24 &&& 0x0f) * 100
  , battery_ok := (m 25 &&& 0x80) == 0 }

/-- Message-level part of the 5-in-1 decoder: the parity-mirror check aborts
with a MIC failure, otherwise the fields are decoded. -/
def bresser_5in1_msg (msg : List Nat) : Dres Reading5 :=
  if parity5 msg = false then .err .DECODE_FAIL_MIC
  else .ok (decodeFields5 msg)

/-- The 5-in-1 part of `bresser_5in1_decode` (source lines 362-442), i.e.
everything after the piggy-backed 7-in-1 and 6-in-1 attempts. -/
def bresser_5in1_body (bb : bitbuffer_t) : Dres Reading5 :=
  if bb.num_rows ≠ 1 ∨ bb.row0.length < 248 ∨ bb.row0.length > 440 then
    .err .DECODE_ABORT_EARLY
  else
    let s := bitbuffer_search bb.row0 (bytesToBits pat7)
    if s = bb.row0.length then .err .DECODE_ABORT_LENGTH
    else
      let start_pos := s + 5 * 8
      let len := bb.row0.length - start_pos
      if (len + 7) / 8 < 26 then .err .DECODE_ABORT_LENGTH
      else bresser_5in1_msg (bitbuffer_extract_bytes bb.row0 start_pos (min len (26 * 8)))

/-- A reading from any of the three variants (the C code distinguishes them
by the emitted model string). -/
inductive Reading where
  | r7 (x : Reading7)
  | r6 (x : Reading6)
  | r5 (x : Reading5)
deriving DecidableEq, Repr

/-- The registered decode entry point (source lines 344-442): piggy-backs the
7-in-1 and then the 6-in-1 decoder, returning the first successful result
(`ret > 0`), and otherwise runs the 5-in-1 body and returns its outcome. -/
def bresser_5in1_decode (bb : bitbuffer_t) : Dres Reading :=
  match bresser_7in1_decode bb with
  | .ok r => .ok (.r7 r)
  | .err _ =>
    match bresser_6in1_decode bb with
    | .ok r => .ok (.r6 r)
    | .err _ =>
      match bresser_5in1_body bb with
      | .ok r => .ok (.r5 r)
      | .err e => .err e

/-! Concrete captures and messages used as witnesses and counterexamples. -/

/-- A capture that decodes successfully as 7-in-1: the 7-in-1 preamble
followed by 25 bytes of 0xff (raw byte 21 is nonzero). -/
def bbC0 : bitbuffer_t := ⟨1, bytesToBits (pat7 ++ List.replicate 25 0xff)⟩

/-- The reading `bbC0` decodes to (all whitened bytes are 0x55). -/
def readingC0 : Reading7 :=
  { id := 21845, wdir := 555, wgst_raw := 555, wavg_raw := 555,
    rain_raw := 555000, temp_tenths := 555, humidity := 55, lght_raw := 5555 }

/-- Padding inserted before the valid capture of `bbC0`: a spurious 7-in-1
preamble followed by 22 zero bytes.  It makes the preamble search lock onto
the padding and pushes the total row length past the 440-bit maximum of the
6-in-1 and 5-in-1 variants. -/
def padC7 : List Nat := pat7 ++ List.replicate 22 0x00

/-- `bbC0` with `padC7` inserted before the original preamble. -/
def bbC7 : bitbuffer_t := ⟨1, bytesToBits (padC7 ++ (pat7 ++ List.replicate 25 0xff))⟩

/-- A row whose preamble is followed by only 169 bits: more than the 21 bytes
the 7-in-1 length check demands but fewer than the 25 bytes it extracts. -/
def bbC3 : bitbuffer_t := ⟨1, bytesToBits pat7 ++ List.replicate 169 false⟩

/-- The 7-in-1 preamble followed by 25 zero bytes: raw byte 21 is 0x00. -/
def bbC9 : bitbuffer_t := ⟨1, bytesToBits (pat7 ++ List.replicate 25 0x00)⟩

/-- A 248-bit row (7 zero bits, the 5-in-1 preamble, 201 zero bits): after
synchronization only 201 bits remain — fewer than the 26 bytes the 5-in-1
variant extracts, but enough for its rounded-up `(len+7)/8` check. -/
def bbC35 : bitbuffer_t :=
  ⟨1, List.replicate 7 false ++ bytesToBits pat7 ++ List.replicate 201 false⟩

/-- A 26-byte message whose first half is the complement of the second. -/
def msgC5 : List Nat := List.replicate 13 0 ++ List.replicate 13 0xff

/-- Checksummed byte range (bytes 2..17 of a 6-in-1 frame) summing to 0xff
with a 0x00 byte in first position. -/
def rangeC2 : List Nat := [0x00, 0xff] ++ List.replicate 14 0

/-- Digest payload (bytes 2..16) of the valid 6-in-1 frame `msgC2`. -/
def payloadC2 : List Nat := [0x00, 0xff] ++ List.replicate 13 0

/-- A fully valid 6-in-1 frame: correct digest in bytes 0..1, checksum byte
0x00 making the end-around-carry sum of bytes 2..17 equal 0xff. -/
def msgC2 : List Nat :=
  [lfsr_digest16 payloadC2 0x8810 0x5412 >>> 8,
   lfsr_digest16 payloadC2 0x8810 0x5412 &&& 0xff] ++ payloadC2 ++ [0x00]

/-- A whitened 7-in-1 message whose rain bytes 10..12 are 0x00 0x01 0x23:
the documented six-digit BCD value is 000123. -/
def msgC4 : List Nat := List.replicate 10 0 ++ [0x00, 0x01, 0x23]

/-- Modelled from the spec: the rain formula the spec claims for the 7-in-1
layout — the full six-nibble BCD value of bytes 10..12, digits weighted
100000 down to 1 (§4.5 and claim C4); to be compared with the `rain_raw`
the source computes. -/
def rain7_six_digit_bcd (w : List Nat) : Nat :=
  let m := fun i => w.getD i 0
  (m 10 >>> 4) * 100000 + (m 10 &&& 0xf) * 10000 + (m 11 >>> 4) * 1000
    + (m 11 &&& 0xf) * 100 + (m 12 >>> 4) * 10 + (m 12 &&& 0xf) * 1

/-! Theorems. -/

/-- C1: the entry point attempts 7-in-1, then 6-in-1, then 5-in-1, returns
the first successful decode — so a capture decoding validly under both the
7-in-1 and the 6-in-1 layout yields the 7-in-1 reading — and after all three
variants fail, the final (5-in-1) variant's failure outcome is returned. -/
theorem variant_dispatch_priority (bb : bitbuffer_t) :
    (∀ r, bresser_7in1_decode bb = .ok r → bresser_5in1_decode bb = .ok (.r7 r)) ∧
    (∀ r7 r6, bresser_7in1_decode bb = .ok r7 → bresser_6in1_decode bb = .ok r6 →
      bresser_5in1_decode bb = .ok (.r7 r7)) ∧
    (∀ e r, bresser_7in1_decode bb = .err e → bresser_6in1_decode bb = .ok r →
      bresser_5in1_decode bb = .ok (.r6 r)) ∧
    (∀ e1 e2 e3, bresser_7in1_decode bb = .err e1 → bresser_6in1_decode bb = .err e2 →
      bresser_5in1_body bb = .err e3 → bresser_5in1_decode bb = .err e3) := by
  refine ⟨?_, ?_, ?_, ?_⟩ <;> intros <;> simp [bresser_5in1_decode, *]

/-- Witness for C1: `bbC0` decodes under the 7-in-1 layout, and the entry
point returns exactly that reading. -/
theorem variant_dispatch_priority_witness :
    bresser_5in1_decode bbC0 = .ok (.r7 readingC0) :=
  (variant_dispatch_priority bbC0).1 readingC0 (by decide)

/-- C6: a 6-in-1 digest mismatch (16-bit big-endian bytes 0..1 against the
LFSR digest of bytes 2..16, generator 0x8810) aborts with the MIC failure,
while the 7-in-1 path emits its reading no matter how the digest comparison
(XOR-ed against 0x6df1) turns out — the mismatch is only logged. -/
theorem digest_mismatch_handling :
    (∀ msg : List Nat,
      (msg.getD 0 0) * 256 + msg.getD 1 0 ≠ lfsr_digest16 ((msg.drop 2).take 15) 0x8810 0x5412 →
      bresser_6in1_msg msg = .err .DECODE_FAIL_MIC) ∧
    (∀ msg : List Nat, msg.getD 21 0 ≠ 0 →
      bresser_7in1_msg msg = .ok (decodeFields7 (msg.map (fun b => b ^^^ 0xaa)))) := by
  constructor
  · intro msg h
    simp only [bresser_6in1_msg]
    rw [if_pos h]
  · intro msg h
    simp only [bresser_7in1_msg]
    rw [if_neg (by simpa using h)]
    split <;> rfl

/-- Witness for C6: a message whose digest bytes read 0x0100 over an empty
digest 0, and the all-0xff 7-in-1 message. -/
theorem digest_mismatch_handling_witness :
    bresser_6in1_msg [1] = .err .DECODE_FAIL_MIC ∧
    bresser_7in1_msg (List.replicate 25 0xff)
      = .ok (decodeFields7 ((List.replicate 25 0xff).map (fun b => b ^^^ 0xaa))) :=
  ⟨digest_mismatch_handling.1 [1] (by decide),
   digest_mismatch_handling.2 (List.replicate 25 0xff) (by decide)⟩

/-- C8: a bitbuffer with more than one row, or a single row below the
variant's minimum bit length (160 for 7-in-1 and 6-in-1, 248 for 5-in-1), is
rejected immediately with the length/row-count rejection code of that
variant and no reading is emitted. -/
theorem short_or_multirow_rejected (bb : bitbuffer_t) :
    (bb.num_rows ≠ 1 ∨ bb.row0.length < 160 →
      bresser_7in1_decode bb = .err .DECODE_ABORT_LENGTH) ∧
    (bb.num_rows ≠ 1 ∨ bb.row0.length < 160 →
      bresser_6in1_decode bb = .err .DECODE_ABORT_EARLY) ∧
    (bb.num_rows ≠ 1 ∨ bb.row0.length < 248 →
      bresser_5in1_body bb = .err .DECODE_ABORT_EARLY) := by
  refine ⟨fun h => ?_, fun h => ?_, fun h => ?_⟩
  · rw [bresser_7in1_decode, if_pos (by omega)]
  · rw [bresser_6in1_decode, if_pos (by omega)]
  · rw [bresser_5in1_body, if_pos (by omega)]

/-- Witness for C8: a two-row bitbuffer is rejected by all three variants. -/
theorem short_or_multirow_rejected_witness :
    bresser_7in1_decode ⟨2, []⟩ = .err .DECODE_ABORT_LENGTH ∧
    bresser_6in1_decode ⟨2, []⟩ = .err .DECODE_ABORT_EARLY ∧
    bresser_5in1_body ⟨2, []⟩ = .err .DECODE_ABORT_EARLY :=
  ⟨(short_or_multirow_rejected ⟨2, []⟩).1 (by decide),
   (short_or_multirow_rejected ⟨2, []⟩).2.1 (by decide),
   (short_or_multirow_rejected ⟨2, []⟩).2.2 (by decide)⟩

/-- C10: in a 6-in-1 reading the wind gust/average/direction fields are
present exactly when each of the de-inverted wind bytes 7, 8, 9 is at most
0x99, and the rain field is present exactly when the temperature field is
absent, i.e. when byte 12 is 0xff. -/
theorem wind_rain_presence (msg : List Nat) :
    ((decodeFields6 msg).wind_ok = true ↔
      (msg.getD 7 0 ^^^ 0xff) ≤ 0x99 ∧ (msg.getD 8 0 ^^^ 0xff) ≤ 0x99 ∧
        (msg.getD 9 0 ^^^ 0xff) ≤ 0x99) ∧
    ((decodeFields6 msg).rain_ok = true ↔ (decodeFields6 msg).temp_ok = false) ∧
    ((decodeFields6 msg).temp_ok = false ↔ msg.getD 12 0 = 0xff) := by
  refine ⟨?_, ?_, ?_⟩ <;> simp [decodeFields6, and_assoc]

/-- C9: whenever a 7-in-1 attempt passes the row, preamble and length checks
and the raw extracted byte 21 is 0x00, the decode aborts with the sanity
failure code: no whitened field is ever decoded and no reading is emitted. -/
theorem sanity_check_byte21 (bb : bitbuffer_t)
    (h1 : bb.num_rows = 1) (h2 : 160 ≤ bb.row0.length)
    (h3 : bitbuffer_search bb.row0 (bytesToBits pat7) + 5 * 8 < bb.row0.length)
    (h4 : bitbuffer_search bb.row0 (bytesToBits pat7) + 5 * 8 + 21 * 8 < bb.row0.length)
    (h5 : (bitbuffer_extract_bytes bb.row0
            (bitbuffer_search bb.row0 (bytesToBits pat7) + 5 * 8) (25 * 8)).getD 21 0 = 0) :
    bresser_7in1_decode bb = .err .DECODE_FAIL_SANITY := by
  rw [bresser_7in1_decode, if_neg (by omega)]
  simp only []
  rw [if_neg (by omega), if_neg (by omega), bresser_7in1_msg, if_pos h5]

/-- Witness for C9: the 7-in-1 preamble followed by 25 zero bytes. -/
theorem sanity_check_byte21_witness :
    bresser_7in1_decode bbC9 = .err .DECODE_FAIL_SANITY :=
  sanity_check_byte21 bbC9 (by decide) (by decide) (by decide) (by decide) (by decide)

/-- The parity loop accepts exactly when every checked pair complements. -/
theorem parityAux_eq_true_iff (msg : List Nat) :
    ∀ n col, parityAux msg n col = true ↔
      ∀ i < n, msg.getD (col + i) 0 ^^^ msg.getD (col + i + 13) 0 = 0xff := by
  intro n
  induction n with
  | zero => intro col; simp [parityAux]
  | succ k ih =>
    intro col
    constructor
    · intro h i hi
      rw [parityAux] at h
      by_cases hc : (msg.getD col 0 ^^^ msg.getD (col + 13) 0) ≠ 0xff
      · rw [if_pos hc] at h; exact absurd h (by simp)
      · rw [if_neg hc] at h
        push_neg at hc
        rcases Nat.eq_zero_or_pos i with rfl | hpos
        · simpa using hc
        · have hrec := (ih (col + 1)).mp h (i - 1) (by omega)
          have heq : col + 1 + (i - 1) = col + i := by omega
          rw [heq] at hrec
          exact hrec
    · intro hall
      rw [parityAux]
      have h0 := hall 0 (by omega)
      simp only [Nat.add_zero] at h0
      rw [if_neg (not_not_intro h0)]
      refine (ih (col + 1)).mpr ?_
      intro i hi
      have heq : col + 1 + i = col + (i + 1) := by omega
      rw [heq]
      exact hall (i + 1) (by omega)

/-- Updating index `j` leaves every other `getD` unchanged. -/
theorem getD_set_ne (l : List Nat) (i j v : Nat) (h : i ≠ j) :
    (l.set j v).getD i 0 = l.getD i 0 := by
  induction l generalizing i j with
  | nil => simp
  | cons x xs ih =>
    cases j with
    | zero => cases i with
      | zero => exact absurd rfl h
      | succ i' => simp [List.set]
    | succ j' => cases i with
      | zero => simp [List.set]
      | succ i' => simpa [List.set] using ih i' j' (by omega)

/-- Updating index `j` within bounds makes `getD j` the new value. -/
theorem getD_set_self (l : List Nat) (j v : Nat) (h : j < l.length) :
    (l.set j v).getD j 0 = v := by
  induction l generalizing j with
  | nil => simp at h
  | cons x xs ih =>
    cases j with
    | zero => simp [List.set]
    | succ j' => simpa [List.set] using ih j' (by simpa using h)

/-- Cancellation for `Nat` xor. -/
theorem xor_eq_left_imp_zero (a b : Nat) (h : a ^^^ b = a) : b = 0 := by
  have : a ^^^ (a ^^^ b) = a ^^^ a := by rw [h]
  rwa [← Nat.xor_assoc, Nat.xor_self, Nat.zero_xor] at this

/-- C5: a 5-in-1 message is accepted only if each of the first 13 bytes is
the complement of the byte 13 positions later; any mismatch yields the MIC
failure; and flipping any single bit of a message that passes the
parity-mirror check makes the check fail with the MIC failure. -/
theorem parity_mirror_5in1 :
    (∀ msg r, bresser_5in1_msg msg = .ok r →
      ∀ col < 13, msg.getD col 0 ^^^ msg.getD (col + 13) 0 = 0xff) ∧
    (∀ msg : List Nat, (¬ ∀ col < 13, msg.getD col 0 ^^^ msg.getD (col + 13) 0 = 0xff) →
      bresser_5in1_msg msg = .err .DECODE_FAIL_MIC) ∧
    (∀ msg j k, msg.length = 26 → j < 26 → k < 8 → parity5 msg = true →
      bresser_5in1_msg (msg.set j (msg.getD j 0 ^^^ 1 <<< k)) = .err .DECODE_FAIL_MIC) := by
  have hchar : ∀ msg : List Nat, parity5 msg = true ↔
      ∀ col < 13, msg.getD col 0 ^^^ msg.getD (col + 13) 0 = 0xff := by
    intro msg
    simpa using parityAux_eq_true_iff msg 13 0
  have key : ∀ a b s : Nat, a ^^^ b = 0xff → (a ^^^ s) ^^^ b = 0xff → s = 0 := by
    intro a b s hab h
    apply xor_eq_left_imp_zero 0xff
    calc 0xff ^^^ s = (a ^^^ b) ^^^ s := by rw [hab]
      _ = (a ^^^ s) ^^^ b := by
          rw [Nat.xor_assoc, Nat.xor_comm b s, ← Nat.xor_assoc]
      _ = 0xff := h
  have key2 : ∀ a b s : Nat, a ^^^ b = 0xff → a ^^^ (b ^^^ s) = 0xff → s = 0 := by
    intro a b s hab h
    apply xor_eq_left_imp_zero 0xff
    calc 0xff ^^^ s = (a ^^^ b) ^^^ s := by rw [hab]
      _ = a ^^^ (b ^^^ s) := by rw [Nat.xor_assoc]
      _ = 0xff := h
  refine ⟨?_, ?_, ?_⟩
  · intro msg r h col hcol
    have hp : parity5 msg = true := by
      by_contra hcon
      have hf : parity5 msg = false := by revert hcon; cases parity5 msg <;> simp
      rw [bresser_5in1_msg, if_pos hf] at h
      exact absurd h (by simp)
    exact (hchar msg).mp hp col hcol
  · intro msg h
    have hp : parity5 msg = false := by
      by_contra hcon
      have ht : parity5 msg = true := by revert hcon; cases parity5 msg <;> simp
      exact h ((hchar msg).mp ht)
    rw [bresser_5in1_msg, if_pos hp]
  · intro msg j k hlen hj hk hpar
    have hpairs := (hchar msg).mp hpar
    have hflip : 1 <<< k ≠ 0 := by
      rw [Nat.shiftLeft_eq, Nat.one_mul]
      have h2 : 0 < 2 ^ k := Nat.pow_pos (by omega)
      omega
    have hfalse : parity5 (msg.set j (msg.getD j 0 ^^^ 1 <<< k)) = false := by
      by_contra hcon
      have htrue : parity5 (msg.set j (msg.getD j 0 ^^^ 1 <<< k)) = true := by
        revert hcon; cases parity5 (msg.set j (msg.getD j 0 ^^^ 1 <<< k)) <;> simp
      have hpairs' := (hchar _).mp htrue
      by_cases hcase : j < 13
      · have e1 : (msg.set j (msg.getD j 0 ^^^ 1 <<< k)).getD j 0 = msg.getD j 0 ^^^ 1 <<< k :=
          getD_set_self msg j _ (by omega)
        have e2 : (msg.set j (msg.getD j 0 ^^^ 1 <<< k)).getD (j + 13) 0 = msg.getD (j + 13) 0 :=
          getD_set_ne msg (j + 13) j _ (by omega)
        have hp' := hpairs' j hcase
        rw [e1, e2] at hp'
        exact absurd (key _ _ _ (hpairs j hcase) hp') hflip
      · have hcol : j - 13 < 13 := by omega
        have heq : j - 13 + 13 = j := by omega
        have e1 : (msg.set j (msg.getD j 0 ^^^ 1 <<< k)).getD (j - 13) 0 = msg.getD (j - 13) 0 :=
          getD_set_ne msg (j - 13) j _ (by omega)
        have e2 : (msg.set j (msg.getD j 0 ^^^ 1 <<< k)).getD j 0 = msg.getD j 0 ^^^ 1 <<< k :=
          getD_set_self msg j _ (by omega)
        have hp' := hpairs' (j - 13) hcol
        rw [heq, e1, e2] at hp'
        have hp0 := hpairs (j - 13) hcol
        rw [heq] at hp0
        exact absurd (key2 _ _ _ hp0 hp') hflip
    rw [bresser_5in1_msg, if_pos hfalse]

/-- Witness for C5: the message with 13 zero bytes followed by 13 0xff bytes
passes the parity mirror, and flipping bit 0 of byte 0 makes the decode fail
with the MIC failure. -/
theorem parity_mirror_5in1_witness :
    bresser_5in1_msg (msgC5.set 0 (msgC5.getD 0 0 ^^^ 1 <<< 0)) = .err .DECODE_FAIL_MIC :=
  parity_mirror_5in1.2.2 msgC5 0 0 (by decide) (by decide) (by decide) (by decide)

/-- C4: the source's `rain_raw` diverges from the documented six-digit BCD
rain value.  Line 106 of the source ends in a semicolon, so the three low
digits on line 107 form an orphaned expression statement: on a message whose
bytes 10..12 are 0x00 0x01 0x23 the code yields 0 where the documented
six-digit layout (the source's own `// 6 digits` comment) yields 123, i.e.
0.0 mm instead of 12.3 mm. -/
theorem rain7_stray_semicolon_divergence :
    (decodeFields7 msgC4).rain_raw = 0 ∧ rain7_six_digit_bcd msgC4 = 123 ∧
    (decodeFields7 msgC4).rain_raw ≠ rain7_six_digit_bcd msgC4 := by decide

/-- The end-around-carry fold preserves the value modulo 255 (256 ≡ 1). -/
theorem foldCarryAux_mod255 : ∀ fuel n, n ≤ fuel → foldCarryAux fuel n % 255 = n % 255 := by
  intro fuel
  induction fuel with
  | zero => intro n h; interval_cases n; rfl
  | succ f ih =>
    intro n h
    rw [foldCarryAux]
    split
    · rfl
    · next hn =>
      have hle : n % 256 + n / 256 ≤ f := by omega
      rw [ih _ hle]
      omega

/-- The end-around-carry fold lands below 256 when given enough fuel. -/
theorem foldCarryAux_lt : ∀ fuel n, n ≤ fuel → foldCarryAux fuel n < 256 := by
  intro fuel
  induction fuel with
  | zero => intro n h; interval_cases n; decide
  | succ f ih =>
    intro n h
    rw [foldCarryAux]
    split
    · assumption
    · next hn => exact ih _ (by omega)

/-- The folded checksum is an 8-bit value. -/
theorem add_bytes_lt (bytes : List Nat) : add_bytes bytes < 256 :=
  foldCarryAux_lt _ _ le_rfl

/-- The folded checksum agrees with the plain byte sum modulo 255. -/
theorem add_bytes_mod255 (bytes : List Nat) :
    add_bytes bytes % 255 = (bytes.foldl (· + ·) 0) % 255 :=
  foldCarryAux_mod255 _ _ le_rfl

/-- The end-around-carry fold of a positive value stays positive. -/
theorem foldCarryAux_pos : ∀ fuel n, n ≤ fuel → 0 < n → 0 < foldCarryAux fuel n := by
  intro fuel
  induction fuel with
  | zero =>
    intro n h hp
    rw [foldCarryAux]
    exact hp
  | succ f ih =>
    intro n h hp
    rw [foldCarryAux]
    split
    · exact hp
    · next hn => exact ih _ (by omega) (by omega)


/-- Masking an 8-bit value with 0xff is the identity. -/
theorem and255_eq_self (x : Nat) (h : x < 256) : x &&& 0xff = x := by
  have h2 : x &&& 2 ^ 8 - 1 = x % 2 ^ 8 := Nat.and_pow_two_sub_one_eq_mod x 8
  norm_num at h2
  rw [h2, Nat.mod_eq_of_lt h]

/-- Folding `+` from 0 computes the list sum. -/
theorem foldl_add_eq (l : List Nat) : ∀ a, l.foldl (· + ·) a = a + l.sum := by
  induction l with
  | nil => intro a; simp
  | cons x xs ih => intro a; rw [List.foldl_cons, ih, List.sum_cons]; omega

/-- Replacing one in-bounds element trades its old value for the new one in
the list sum. -/
theorem sum_set (l : List Nat) : ∀ j v, j < l.length →
    (l.set j v).sum + l.getD j 0 = l.sum + v := by
  induction l with
  | nil => intro j v h; simp at h
  | cons x xs ih =>
    intro j v h
    cases j with
    | zero => simp [List.set, List.sum_cons]; omega
    | succ j' =>
      have hrec := ih j' v (by simpa using h)
      simp only [List.set, List.sum_cons, List.getD_cons_succ]
      omega

/-- Exact acceptance condition of the folded checksum: it equals 0xff
precisely when the byte sum is a positive multiple of 255. -/
theorem add_bytes_eq_ff_iff (bs : List Nat) :
    add_bytes bs = 0xff ↔ (bs.sum % 255 = 0 ∧ 0 < bs.sum) := by
  have hT : bs.foldl (· + ·) 0 = bs.sum := by rw [foldl_add_eq]; omega
  rw [add_bytes, hT]
  rcases Nat.eq_zero_or_pos bs.sum with hz | hp
  · rw [hz]
    decide
  · have h1 := foldCarryAux_lt bs.sum bs.sum le_rfl
    have h2 := foldCarryAux_mod255 bs.sum bs.sum le_rfl
    have h3 := foldCarryAux_pos bs.sum bs.sum le_rfl hp
    omega

/-- C2 (amended): a 6-in-1 message passes the additive checksum only if the
end-around-carry sum of bytes 2..17 is 0xff; any message violating that sum
yields the MIC failure; corrupting a byte of the range in a way that changes
the byte sum modulo 255 breaks the invariant; and in general a corrupted
range keeps the invariant exactly when the new byte agrees with the old one
modulo 255 and the corrupted sum is still positive — so a corruption such as
0x00 to 0xff slips through (see the counterexample), while one that changes
the sum modulo 255 or zeroes the whole sum breaks the check. -/
theorem additive_checksum_6in1 :
    (∀ msg : List Nat, add_bytes ((msg.drop 2).take 16) ≠ 0xff →
      bresser_6in1_msg msg = .err .DECODE_FAIL_MIC) ∧
    (∀ msg r, bresser_6in1_msg msg = .ok r → add_bytes ((msg.drop 2).take 16) = 0xff) ∧
    (∀ (bs : List Nat) j v, bs.length = 16 → j < 16 →
      add_bytes bs = 0xff → v % 255 ≠ bs.getD j 0 % 255 →
      add_bytes (bs.set j v) ≠ 0xff) ∧
    (∀ (bs : List Nat) j v, bs.length = 16 → j < 16 →
      add_bytes bs = 0xff →
      (add_bytes (bs.set j v) = 0xff ↔
        (v % 255 = bs.getD j 0 % 255 ∧ 0 < (bs.set j v).sum))) := by
  have hA : ∀ msg : List Nat, add_bytes ((msg.drop 2).take 16) ≠ 0xff →
      bresser_6in1_msg msg = .err .DECODE_FAIL_MIC := by
    intro msg h
    simp only [bresser_6in1_msg]
    split
    · rfl
    · rw [if_pos]
      rw [and255_eq_self _ (add_bytes_lt _)]
      exact h
  refine ⟨hA, ?_, ?_, ?_⟩
  · intro msg r h
    by_contra hne
    rw [hA msg hne] at h
    exact absurd h (by simp)
  · intro bs j v hlen hj hsum hmod hcon
    have h1 : (bs.foldl (· + ·) 0) % 255 = 0 := by
      have hm := add_bytes_mod255 bs
      rw [hsum] at hm
      omega
    have h2 : ((bs.set j v).foldl (· + ·) 0) % 255 = 0 := by
      have hm := add_bytes_mod255 (bs.set j v)
      rw [hcon] at hm
      omega
    rw [foldl_add_eq, Nat.zero_add] at h1 h2
    have h3 := sum_set bs j v (by omega)
    omega
  · intro bs j v hlen hj hvalid
    have hS := (add_bytes_eq_ff_iff bs).mp hvalid
    have h3 := sum_set bs j v (by omega)
    rw [add_bytes_eq_ff_iff]
    omega

/-- Witness for C2's amended theorem: the empty message fails the checksum
with the MIC failure; raising byte 0 of a valid range from 0x00 to 0x01
(changing the sum modulo 255) breaks the invariant; and the exact
characterization instantiates at the 0x00-to-0xff corruption. -/
theorem additive_checksum_6in1_witness :
    bresser_6in1_msg [] = .err .DECODE_FAIL_MIC ∧
    add_bytes (rangeC2.set 0 1) ≠ 0xff ∧
    (add_bytes (rangeC2.set 0 0xff) = 0xff ↔
      (0xff % 255 = rangeC2.getD 0 0 % 255 ∧ 0 < (rangeC2.set 0 0xff).sum)) :=
  ⟨additive_checksum_6in1.1 [] (by decide),
   additive_checksum_6in1.2.2.1 rangeC2 0 1 (by decide) (by decide) (by decide) (by decide),
   additive_checksum_6in1.2.2.2 rangeC2 0 0xff (by decide) (by decide) (by decide)⟩

/-- Counterexample for C2 as stated: `msgC2` is a fully valid 6-in-1 frame
(it decodes), byte 2 of the checksummed range is 0x00, and corrupting it to
0xff leaves the end-around-carry sum at 0xff — corrupting a byte in the
range of a valid frame does not always violate the invariant. -/
theorem additive_checksum_counterexample :
    bresser_6in1_msg msgC2 = .ok (decodeFields6 msgC2) ∧
    msgC2.getD 2 0 = 0x00 ∧
    add_bytes ((msgC2.drop 2).take 16) = 0xff ∧
    add_bytes (((msgC2.set 2 0xff).drop 2).take 16) = 0xff := by decide

/-- The 7-in-1 message stage only ever reports a sanity failure or a
reading, never a length abort. -/
theorem bresser_7in1_msg_ne_abort_length (msg : List Nat) :
    bresser_7in1_msg msg ≠ .err .DECODE_ABORT_LENGTH := by
  simp only [bresser_7in1_msg]
  split
  · simp
  · split <;> simp

/-- The 6-in-1 message stage only ever reports a MIC failure or a reading,
never a length abort. -/
theorem bresser_6in1_msg_ne_abort_length (msg : List Nat) :
    bresser_6in1_msg msg ≠ .err .DECODE_ABORT_LENGTH := by
  simp only [bresser_6in1_msg]
  split
  · simp
  · split <;> simp

/-- The 5-in-1 message stage only ever reports a MIC failure or a reading,
never a length abort. -/
theorem bresser_5in1_msg_ne_abort_length (msg : List Nat) :
    bresser_5in1_msg msg ≠ .err .DECODE_ABORT_LENGTH := by
  simp only [bresser_5in1_msg]
  split <;> simp

/-- The search result never exceeds the row length. -/
theorem bitbuffer_search_le : ∀ bits pat : List Bool,
    bitbuffer_search bits pat ≤ bits.length := by
  intro bits
  induction bits with
  | nil => intro pat; simp [bitbuffer_search]
  | cons b t ih =>
    intro pat
    rw [bitbuffer_search]
    split
    · simp
    · simp only [List.length_cons]
      have := ih pat
      omega

/-- A successful pattern match needs at least the pattern's length. -/
theorem patMatch_length : ∀ pat bits : List Bool, patMatch pat bits = true →
    pat.length ≤ bits.length := by
  intro pat
  induction pat with
  | nil => intro bits _; simp
  | cons p ps ih =>
    intro bits h
    cases bits with
    | nil => simp [patMatch] at h
    | cons b bs =>
      simp only [patMatch, Bool.and_eq_true] at h
      have := ih bs h.2
      simp only [List.length_cons]
      omega

/-- A found preamble fits entirely inside the row. -/
theorem bitbuffer_search_fit : ∀ bits pat : List Bool,
    bitbuffer_search bits pat < bits.length →
    bitbuffer_search bits pat + pat.length ≤ bits.length := by
  intro bits
  induction bits with
  | nil => intro pat h; simp at h
  | cons b t ih =>
    intro pat h
    by_cases hm : patMatch pat (b :: t) = true
    · rw [bitbuffer_search, if_pos hm]
      simpa using patMatch_length _ _ hm
    · have hm' : ¬(patMatch pat (b :: t) = true) := hm
      rw [bitbuffer_search, if_neg hm'] at h ⊢
      simp only [List.length_cons] at h ⊢
      have := ih pat (by omega)
      omega

/-- C3 (amended): after the preamble is found, the 7-in-1 decode reports the
too-short length abort exactly when at most 21×8 = 168 bits remain — not the
25×8 = 200 bits it then copies — while the 6-in-1 decode reports it exactly
when fewer than 18×8 = 144 bits remain, and whenever the 6-in-1 variant does
copy, the whole 144-bit window lies inside the row's declared bit length;
the 5-in-1 decode reports it exactly when fewer than 201 bits remain (its
check rounds the remaining bits up to whole bytes against 26), and when it
does copy, the truncated window never extends past the declared bit length. -/
theorem frame_length_thresholds (bb : bitbuffer_t) :
    (bb.num_rows = 1 → 160 ≤ bb.row0.length →
      bitbuffer_search bb.row0 (bytesToBits pat7) + 5 * 8 < bb.row0.length →
      (bresser_7in1_decode bb = .err .DECODE_ABORT_LENGTH ↔
        bb.row0.length - (bitbuffer_search bb.row0 (bytesToBits pat7) + 5 * 8) ≤ 168)) ∧
    (bb.num_rows = 1 → 160 ≤ bb.row0.length → bb.row0.length ≤ 440 →
      bitbuffer_search bb.row0 (bytesToBits pat6) < bb.row0.length →
      (bresser_6in1_decode bb = .err .DECODE_ABORT_LENGTH ↔
        bb.row0.length - (bitbuffer_search bb.row0 (bytesToBits pat6) + 4 * 8) < 144)) ∧
    (bitbuffer_search bb.row0 (bytesToBits pat6) < bb.row0.length →
      144 ≤ bb.row0.length - (bitbuffer_search bb.row0 (bytesToBits pat6) + 4 * 8) →
      bitbuffer_search bb.row0 (bytesToBits pat6) + 4 * 8 + 144 ≤ bb.row0.length) ∧
    (bb.num_rows = 1 → 248 ≤ bb.row0.length → bb.row0.length ≤ 440 →
      bitbuffer_search bb.row0 (bytesToBits pat7) ≠ bb.row0.length →
      (bresser_5in1_body bb = .err .DECODE_ABORT_LENGTH ↔
        bb.row0.length - (bitbuffer_search bb.row0 (bytesToBits pat7) + 5 * 8) < 201)) ∧
    (bitbuffer_search bb.row0 (bytesToBits pat7) < bb.row0.length →
      201 ≤ bb.row0.length - (bitbuffer_search bb.row0 (bytesToBits pat7) + 5 * 8) →
      bitbuffer_search bb.row0 (bytesToBits pat7) + 5 * 8
          + min (bb.row0.length - (bitbuffer_search bb.row0 (bytesToBits pat7) + 5 * 8)) (26 * 8)
        ≤ bb.row0.length) := by
  refine ⟨?_, ?_, ?_, ?_, ?_⟩
  · intro h1 h2 h3
    simp only [bresser_7in1_decode]
    rw [if_neg (by omega), if_neg (by omega)]
    by_cases hc : bitbuffer_search bb.row0 (bytesToBits pat7) + 5 * 8 + 21 * 8 ≥ bb.row0.length
    · rw [if_pos hc]
      constructor
      · intro _; omega
      · intro _; rfl
    · rw [if_neg hc]
      constructor
      · intro h; exact absurd h (bresser_7in1_msg_ne_abort_length _)
      · intro h; omega
  · intro h1 h2 h3 h4
    simp only [bresser_6in1_decode]
    rw [if_neg (by omega), if_neg (by omega)]
    by_cases hc : bb.row0.length - (bitbuffer_search bb.row0 (bytesToBits pat6) + 4 * 8) < 18 * 8
    · rw [if_pos hc]
      constructor
      · intro _; omega
      · intro _; rfl
    · rw [if_neg hc]
      constructor
      · intro h; exact absurd h (bresser_6in1_msg_ne_abort_length _)
      · intro h; omega
  · intro h1 h2
    have hfit := bitbuffer_search_fit bb.row0 (bytesToBits pat6) h1
    have hlen : (bytesToBits pat6).length = 32 := by decide
    omega
  · intro h1 h2 h3 h4
    simp only [bresser_5in1_body]
    rw [if_neg (by omega), if_neg h4]
    by_cases hc : (bb.row0.length - (bitbuffer_search bb.row0 (bytesToBits pat7) + 5 * 8) + 7) / 8
        < 26
    · rw [if_pos hc]
      constructor
      · intro _; omega
      · intro _; rfl
    · rw [if_neg hc]
      constructor
      · intro h; exact absurd h (bresser_5in1_msg_ne_abort_length _)
      · intro h; omega
  · intro h1 h2
    have hfit := bitbuffer_search_fit bb.row0 (bytesToBits pat7) h1
    have hlen : (bytesToBits pat7).length = 40 := by decide
    have hmin := Nat.min_le_left
      (bb.row0.length - (bitbuffer_search bb.row0 (bytesToBits pat7) + 5 * 8)) (26 * 8)
    omega

/-- Witness for C3's amended theorem: the 7-in-1 characterization
instantiates on `bbC3` and the 5-in-1 one on `bbC35`, with every hypothesis
discharged concretely. -/
theorem frame_length_thresholds_witness :
    (bresser_7in1_decode bbC3 = .err .DECODE_ABORT_LENGTH ↔
      bbC3.row0.length - (bitbuffer_search bbC3.row0 (bytesToBits pat7) + 5 * 8) ≤ 168) ∧
    (bresser_5in1_body bbC35 = .err .DECODE_ABORT_LENGTH ↔
      bbC35.row0.length - (bitbuffer_search bbC35.row0 (bytesToBits pat7) + 5 * 8) < 201) :=
  ⟨(frame_length_thresholds bbC3).1 (by decide) (by decide) (by decide),
   (frame_length_thresholds bbC35).2.2.2.1 (by decide) (by decide) (by decide) (by decide)⟩

/-- Counterexample for C3 as stated: on `bbC3` only 169 bits (fewer than the
25×8 the claim demands) remain after the 7-in-1 preamble, yet the decode does
not report the too-short outcome — it proceeds to extraction and fails the
byte-21 sanity check instead, its 200-bit copy window extending past the
declared row length (those bits read as zero); and on `bbC35` only 201 bits
(fewer than the 26×8 the claim demands) remain after the 5-in-1 preamble,
yet the 5-in-1 body proceeds to the parity check instead of reporting the
too-short outcome. -/
theorem frame_length_counterexample :
    bbC3.row0.length - (bitbuffer_search bbC3.row0 (bytesToBits pat7) + 5 * 8) = 169 ∧
    (169 : Nat) < 25 * 8 ∧
    bresser_7in1_decode bbC3 = .err .DECODE_FAIL_SANITY ∧
    bitbuffer_search bbC3.row0 (bytesToBits pat7) + 5 * 8 + 25 * 8 > bbC3.row0.length ∧
    bbC35.row0.length - (bitbuffer_search bbC35.row0 (bytesToBits pat7) + 5 * 8) = 201 ∧
    (201 : Nat) < 26 * 8 ∧
    bresser_5in1_body bbC35 = .err .DECODE_FAIL_MIC := by
  decide

/-- Prepend `n` zero bits to the (single) row of a capture. -/
def padZeros (n : Nat) (bb : bitbuffer_t) : bitbuffer_t :=
  ⟨bb.num_rows, List.replicate n false ++ bb.row0⟩

@[simp] theorem padZeros_row0 (n : Nat) (bb : bitbuffer_t) :
    (padZeros n bb).row0 = List.replicate n false ++ bb.row0 := rfl

@[simp] theorem padZeros_num_rows (n : Nat) (bb : bitbuffer_t) :
    (padZeros n bb).num_rows = bb.num_rows := rfl

/-- A pattern starting with a one bit can never match inside zero padding,
so the search result shifts by exactly the padding length. -/
theorem bitbuffer_search_replicate_false (ps : List Bool) :
    ∀ n bits, bitbuffer_search (List.replicate n false ++ bits) (true :: ps)
      = n + bitbuffer_search bits (true :: ps) := by
  intro n
  induction n with
  | zero => intro bits; simp
  | succ m ih =>
    intro bits
    rw [List.replicate_succ, List.cons_append, bitbuffer_search]
    have hm : patMatch (true :: ps) (false :: (List.replicate m false ++ bits)) = false := by
      simp [patMatch]
    rw [if_neg (by simp [hm]), ih]
    omega

/-- Search shift for the 7-in-1 preamble (it starts with a one bit). -/
theorem bitbuffer_search_pad7 (bits : List Bool) (n : Nat) :
    bitbuffer_search (List.replicate n false ++ bits) (bytesToBits pat7)
      = n + bitbuffer_search bits (bytesToBits pat7) := by
  have h : bytesToBits pat7 = true :: (bytesToBits pat7).tail := by decide
  rw [h, bitbuffer_search_replicate_false]

/-- Search shift for the 6-in-1 preamble (it starts with a one bit). -/
theorem bitbuffer_search_pad6 (bits : List Bool) (n : Nat) :
    bitbuffer_search (List.replicate n false ++ bits) (bytesToBits pat6)
      = n + bitbuffer_search bits (bytesToBits pat6) := by
  have h : bytesToBits pat6 = true :: (bytesToBits pat6).tail := by decide
  rw [h, bitbuffer_search_replicate_false]

/-- Bit reads shift with the zero padding. -/
theorem getBitRow_replicate_false (row : List Bool) (n i : Nat) :
    getBitRow (List.replicate n false ++ row) (n + i) = getBitRow row i := by
  unfold getBitRow
  rw [List.getD_append_right _ _ _ _ (by simp)]
  simp [Nat.add_sub_cancel_left]

/-- Window bits shift with the zero padding. -/
theorem extractBit_shift (row : List Bool) (n pos nbits idx : Nat) :
    extractBit (List.replicate n false ++ row) (n + pos) nbits idx
      = extractBit row pos nbits idx := by
  unfold extractBit
  split
  · have h : n + pos + idx = n + (pos + idx) := by omega
    rw [h, getBitRow_replicate_false]
  · rfl

/-- Window bytes shift with the zero padding. -/
theorem extractByteAt_shift (row : List Bool) (n pos nbits j : Nat) :
    extractByteAt (List.replicate n false ++ row) (n + pos) nbits j
      = extractByteAt row pos nbits j := by
  unfold extractByteAt
  congr 1
  funext acc k
  rw [extractBit_shift]

/-- Extraction shifts with the zero padding. -/
theorem bitbuffer_extract_bytes_shift (row : List Bool) (n pos nbits : Nat) :
    bitbuffer_extract_bytes (List.replicate n false ++ row) (n + pos) nbits
      = bitbuffer_extract_bytes row pos nbits := by
  unfold bitbuffer_extract_bytes
  exact List.map_congr_left (fun j _ => extractByteAt_shift row n pos nbits j)

/-- The 7-in-1 decode is invariant under zero padding once the row already
meets the 160-bit minimum. -/
theorem bresser_7in1_decode_pad (bb : bitbuffer_t) (n : Nat)
    (h1 : bb.num_rows = 1) (h2 : 160 ≤ bb.row0.length) :
    bresser_7in1_decode (padZeros n bb) = bresser_7in1_decode bb := by
  simp only [bresser_7in1_decode, padZeros_row0, padZeros_num_rows, bitbuffer_search_pad7,
    List.length_append, List.length_replicate]
  rw [if_neg (show ¬(bb.num_rows ≠ 1 ∨ n + bb.row0.length < 240 - 80) by omega),
      if_neg (show ¬(bb.num_rows ≠ 1 ∨ bb.row0.length < 240 - 80) by omega)]
  by_cases c2 : bitbuffer_search bb.row0 (bytesToBits pat7) + 5 * 8 ≥ bb.row0.length
  · rw [if_pos (by omega), if_pos c2]
  · rw [if_neg (by omega), if_neg c2]
    by_cases c3 : bitbuffer_search bb.row0 (bytesToBits pat7) + 5 * 8 + 21 * 8 ≥ bb.row0.length
    · rw [if_pos (by omega), if_pos c3]
    · rw [if_neg (by omega), if_neg c3]
      have h : n + bitbuffer_search bb.row0 (bytesToBits pat7) + 5 * 8
          = n + (bitbuffer_search bb.row0 (bytesToBits pat7) + 5 * 8) := by omega
      rw [h, bitbuffer_extract_bytes_shift]

/-- The 6-in-1 decode is invariant under zero padding while the padded row
stays within the 160..440-bit acceptance range. -/
theorem bresser_6in1_decode_pad (bb : bitbuffer_t) (n : Nat)
    (h1 : bb.num_rows = 1) (h2 : 160 ≤ bb.row0.length) (h3 : n + bb.row0.length ≤ 440) :
    bresser_6in1_decode (padZeros n bb) = bresser_6in1_decode bb := by
  simp only [bresser_6in1_decode, padZeros_row0, padZeros_num_rows, bitbuffer_search_pad6,
    List.length_append, List.length_replicate]
  rw [if_neg (show ¬(bb.num_rows ≠ 1 ∨ n + bb.row0.length < 160 ∨ n + bb.row0.length > 440)
        by omega),
      if_neg (show ¬(bb.num_rows ≠ 1 ∨ bb.row0.length < 160 ∨ bb.row0.length > 440) by omega)]
  by_cases c2 : bitbuffer_search bb.row0 (bytesToBits pat6) ≥ bb.row0.length
  · rw [if_pos (by omega), if_pos c2]
  · rw [if_neg (by omega), if_neg c2]
    by_cases c3 : bb.row0.length - (bitbuffer_search bb.row0 (bytesToBits pat6) + 4 * 8) < 18 * 8
    · rw [if_pos (by omega), if_pos c3]
    · rw [if_neg (by omega), if_neg c3]
      have h : n + bitbuffer_search bb.row0 (bytesToBits pat6) + 4 * 8
          = n + (bitbuffer_search bb.row0 (bytesToBits pat6) + 4 * 8) := by omega
      rw [h, bitbuffer_extract_bytes_shift]

/-- The 5-in-1 body is invariant under zero padding while the padded row
stays within the 248..440-bit acceptance range. -/
theorem bresser_5in1_body_pad (bb : bitbuffer_t) (n : Nat)
    (h1 : bb.num_rows = 1) (h2 : 248 ≤ bb.row0.length) (h3 : n + bb.row0.length ≤ 440) :
    bresser_5in1_body (padZeros n bb) = bresser_5in1_body bb := by
  simp only [bresser_5in1_body, padZeros_row0, padZeros_num_rows, bitbuffer_search_pad7,
    List.length_append, List.length_replicate]
  rw [if_neg (show ¬(bb.num_rows ≠ 1 ∨ n + bb.row0.length < 248 ∨ n + bb.row0.length > 440)
        by omega),
      if_neg (show ¬(bb.num_rows ≠ 1 ∨ bb.row0.length < 248 ∨ bb.row0.length > 440) by omega)]
  by_cases c2 : bitbuffer_search bb.row0 (bytesToBits pat7) = bb.row0.length
  · rw [if_pos (by omega), if_pos c2]
  · rw [if_neg (by omega), if_neg c2]
    have hlen : n + bb.row0.length - (n + bitbuffer_search bb.row0 (bytesToBits pat7) + 5 * 8)
        = bb.row0.length - (bitbuffer_search bb.row0 (bytesToBits pat7) + 5 * 8) := by omega
    rw [hlen]
    by_cases c3 : (bb.row0.length - (bitbuffer_search bb.row0 (bytesToBits pat7) + 5 * 8) + 7) / 8
        < 26
    · rw [if_pos c3, if_pos c3]
    · rw [if_neg c3, if_neg c3]
      have h : n + bitbuffer_search bb.row0 (bytesToBits pat7) + 5 * 8
          = n + (bitbuffer_search bb.row0 (bytesToBits pat7) + 5 * 8) := by omega
      rw [h, bitbuffer_extract_bytes_shift]

/-- C7 (amended): for a single-row capture that decodes successfully,
prepending all-zero padding bits preserves the decoded variant and reading,
provided the padded row stays within the 440-bit acceptance bound.
Arbitrary padding may instead change the result, by exceeding a variant's
maximum row length or by containing an earlier preamble match — see the
counterexample. -/
theorem preamble_zero_padding_invariance (bb : bitbuffer_t) (n : Nat) (r : Reading)
    (h1 : bb.num_rows = 1) (h2 : n + bb.row0.length ≤ 440)
    (h3 : bresser_5in1_decode bb = .ok r) :
    bresser_5in1_decode (padZeros n bb) = .ok r := by
  cases hc7 : bresser_7in1_decode bb with
  | ok r7 =>
    have hlen : 160 ≤ bb.row0.length := by
      by_contra hcon
      rw [bresser_7in1_decode, if_pos (by omega)] at hc7
      exact absurd hc7 (by simp)
    have hp7 : bresser_7in1_decode (padZeros n bb) = .ok r7 :=
      (bresser_7in1_decode_pad bb n h1 hlen).trans hc7
    simp only [bresser_5in1_decode, hc7] at h3
    simp only [bresser_5in1_decode, hp7]
    exact h3
  | err e7 =>
    cases hc6 : bresser_6in1_decode bb with
    | ok r6 =>
      have hlen : 160 ≤ bb.row0.length ∧ bb.row0.length ≤ 440 := by
        by_contra hcon
        rw [bresser_6in1_decode, if_pos (by omega)] at hc6
        exact absurd hc6 (by simp)
      have hp7 : bresser_7in1_decode (padZeros n bb) = .err e7 :=
        (bresser_7in1_decode_pad bb n h1 hlen.1).trans hc7
      have hp6 : bresser_6in1_decode (padZeros n bb) = .ok r6 :=
        (bresser_6in1_decode_pad bb n h1 hlen.1 h2).trans hc6
      simp only [bresser_5in1_decode, hc7, hc6] at h3
      simp only [bresser_5in1_decode, hp7, hp6]
      exact h3
    | err e6 =>
      cases hc5 : bresser_5in1_body bb with
      | ok r5 =>
        have hlen : 248 ≤ bb.row0.length := by
          by_contra hcon
          rw [bresser_5in1_body, if_pos (by omega)] at hc5
          exact absurd hc5 (by simp)
        have hp7 : bresser_7in1_decode (padZeros n bb) = .err e7 :=
          (bresser_7in1_decode_pad bb n h1 (by omega)).trans hc7
        have hp6 : bresser_6in1_decode (padZeros n bb) = .err e6 :=
          (bresser_6in1_decode_pad bb n h1 (by omega) h2).trans hc6
        have hp5 : bresser_5in1_body (padZeros n bb) = .ok r5 :=
          (bresser_5in1_body_pad bb n h1 hlen h2).trans hc5
        simp only [bresser_5in1_decode, hc7, hc6, hc5] at h3
        simp only [bresser_5in1_decode, hp7, hp6, hp5]
        exact h3
      | err e5 =>
        simp only [bresser_5in1_decode, hc7, hc6, hc5] at h3
        exact absurd h3 (by simp)

/-- Witness for C7's amended theorem: one zero byte of padding in front of
`bbC0` leaves its 7-in-1 reading unchanged. -/
theorem preamble_zero_padding_invariance_witness :
    bresser_5in1_decode (padZeros 8 bbC0) = .ok (.r7 readingC0) :=
  preamble_zero_padding_invariance bbC0 8 (.r7 readingC0) (by decide) (by decide) (by decide)

/-- Counterexample for C7 as stated: `bbC0` decodes to the 7-in-1 reading,
but prepending the padding bits `padC7` (a spurious preamble plus 22 zero
bytes) to the very same preamble+frame makes every variant fail — the
spurious match sends the 7-in-1 attempt into the padding where the sanity
check fails, and the padded row length 456 exceeds the 440-bit bound of the
other variants. -/
theorem preamble_padding_counterexample :
    bresser_5in1_decode bbC0 = .ok (.r7 readingC0) ∧
    bbC7.row0 = bytesToBits padC7 ++ bbC0.row0 ∧
    bresser_5in1_decode bbC7 = .err .DECODE_ABORT_EARLY := by decide

end Bresser
